import Mathlib

/-!
# Shallow embedding of the `matrix` language front end

Lean model of the `span`, `lexer` and `parser` crates: the `Span` offset
range, the token and diagnostic data model, the single-pass lexer
(`src/lexer/src/lib.rs`) and the precedence-climbing recursive-descent
parser (`src/parser/src/lib.rs`), followed by theorems checking the
specification's claims against this model.

Modelling conventions:
* The Rust lexer walks a `Peekable<Chars>` and a cursor `(usize, usize)`
  of which only the second component is ever read or written; we model the
  source as a `List Char` plus that single `Nat` position (initially 1).
  `Lexer::advance` increments the position *before* polling the iterator,
  so the position grows even on an exhausted source; the model reproduces
  that.
* `Span` fields are `Int` so the subtraction `pos - len` in `Span::new`
  keeps its mathematical value; a negative `start` marks exactly the
  inputs on which the Rust `usize` subtraction would underflow (a panic in
  debug builds).
* Character classes (`UnicodeXID::is_xid_start`/`is_xid_continue`,
  `char::is_numeric`, `char::is_whitespace`) are modelled on their ASCII
  fragments; every input exercised by the claims is ASCII.
* `Rust String::len` is a byte count; for the ASCII identifiers and
  literals modelled here it coincides with the character count used below.
-/

/-- `span::Span`: an exclusive `[start, stop)` range over the source.
The Rust field `end` is renamed `stop` (`end` is reserved in Lean). -/
structure Span where
  start : Int
  stop : Int
deriving DecidableEq, Repr

/-- `Span::new(len, pos)`: derive `start = pos - len` from a length and the
position at the end of the span.  In Rust both arguments are `usize` and
the subtraction underflows (panicking in debug builds) when `len > pos`;
here the `Int` result records that case as a negative `start`. -/
def Span.new (len pos : Nat) : Span :=
  { start := (pos : Int) - (len : Int), stop := (pos : Int) }

/-- `Span::coalesce_adjacent`: the covering span of two spans. -/
def Span.coalesce_adjacent (s other : Span) : Span :=
  { start := min s.start other.start, stop := max s.stop other.stop }

/-- `lexer::token::Keyword`. -/
inductive Keyword where
  | Proc | Let | Void | Int | Ret | Float | If | Elif | Else | For
  | While | Do | Bool | Str
deriving DecidableEq, Repr

/-- `lexer::token::IdentKind`. -/
inductive IdentKind where
  | NonReserved
  | Keyword (k : Keyword)
deriving DecidableEq, Repr

/-- `lexer::token::IntegerBase`. -/
inductive IntegerBase where
  | Binary | Octal | Decimal | Hexadecimal
deriving DecidableEq, Repr

/-- `lexer::token::LiteralKind`. -/
inductive LiteralKind where
  | Character
  | String
  | Integer (base : IntegerBase)
  | Float
  | Boolean
deriving DecidableEq, Repr

/-- `lexer::token::TokenKind`. -/
inductive TokenKind where
  | OpenParen | ClosingParen | OpenCurly | ClosingCurly
  | OpenSquare | ClosingSquare
  | Colon | Semicolon | Period | Comma
  | Equal | EqualEqual
  | Plus | PlusEqual
  | Minus | MinusEqual
  | Star | StarEqual
  | Slash | SlashEqual
  | Percent | PercentEqual
  | Ampersand | AmpersandEqual | AmpAmp
  | Bar | BarEqual | BarBar
  | Tilde
  | Bang | BangEqual
  | Lt | LtEqual
  | Gt | GtEqual
  | Shl | ShlEqual
  | Shr | ShrEqual
  | Ident (k : IdentKind)
  | Literal (k : LiteralKind)
  | EoF
deriving DecidableEq, Repr

/-- `TokenKind::is_unary_op`. -/
def TokenKind.is_unary_op : TokenKind → Bool
  | .Bang | .Minus | .Tilde => true
  | _ => false

/-- `TokenKind::is_comparison_op`. -/
def TokenKind.is_comparison_op : TokenKind → Bool
  | .Lt | .LtEqual | .Gt | .GtEqual => true
  | _ => false

/-- `TokenKind::is_equality_op`. -/
def TokenKind.is_equality_op : TokenKind → Bool
  | .BangEqual | .EqualEqual => true
  | _ => false

/-- `lexer::token::Token`. -/
structure Token where
  kind : TokenKind
  span : Span
deriving DecidableEq, Repr

/-- `lexer::diagnostics::LexDiagnostic`. -/
inductive LexDiagnostic where
  | UnexpectedCharacter (c : Char) (s : Span)
  | EmptyCharacterLiteral (s : Span)
  | UnterminatedCharacterLiteral (s : Span)
  | CharacterLiteralOneCodePoint (s : Span)
  | UnterminatedStringLiteral (s : Span)
deriving DecidableEq, Repr

/-- ASCII fragment of `UnicodeXID::is_xid_start` (ASCII letters). -/
def isXidStart (c : Char) : Bool := c.isAlpha

/-- ASCII fragment of `UnicodeXID::is_xid_continue`
(ASCII letters, digits and underscore). -/
def isXidContinue (c : Char) : Bool := c.isAlpha || c.isDigit || c = '_'

/-- ASCII fragment of Rust `char::is_numeric` (decimal digits). -/
def isNumericChar (c : Char) : Bool := c.isDigit

/-- ASCII fragment of Rust `char::is_whitespace`. -/
def isWhitespaceChar (c : Char) : Bool := c.isWhitespace

/-- Rust `char::is_ascii_octdigit`. -/
def isAsciiOctdigit (c : Char) : Bool := '0' ≤ c && c ≤ '7'

/-- Rust `char::is_ascii_hexdigit`. -/
def isAsciiHexdigit (c : Char) : Bool :=
  c.isDigit || ('a' ≤ c && c ≤ 'f') || ('A' ≤ c && c ≤ 'F')

/-- The `KEYWORDS` table (`src/lexer/src/lib.rs` lines 23-44): keys and the
token kind each lexes to.  Note `"true"`/`"false"` map to
`Literal(Boolean)`, not to an `Ident(Keyword(_))`. -/
def KEYWORDS : List (String × TokenKind) :=
  [("proc", .Ident (.Keyword .Proc)),
   ("let", .Ident (.Keyword .Let)),
   ("void", .Ident (.Keyword .Void)),
   ("int", .Ident (.Keyword .Int)),
   ("ret", .Ident (.Keyword .Ret)),
   ("float", .Ident (.Keyword .Float)),
   ("if", .Ident (.Keyword .If)),
   ("elif", .Ident (.Keyword .Elif)),
   ("else", .Ident (.Keyword .Else)),
   ("for", .Ident (.Keyword .For)),
   ("while", .Ident (.Keyword .While)),
   ("do", .Ident (.Keyword .Do)),
   ("bool", .Ident (.Keyword .Bool)),
   ("str", .Ident (.Keyword .Str)),
   ("true", .Literal .Boolean),
   ("false", .Literal .Boolean)]

/-- `KEYWORDS.get_key_value(ident)`: look a spelled identifier up in the
keyword table. -/
def findKeyword (s : String) : Option TokenKind :=
  (KEYWORDS.find? (fun p => p.1 = s)).map (fun p => p.2)

deriving instance DecidableEq for Except

/-- Result of one lexer step: the token or diagnostic produced, the
remaining source characters, and the updated cursor position. -/
abbrev LexStep := Except LexDiagnostic Token × List Char × Nat

/-- `Lexer::lex_ident`, after the first character has been consumed:
accumulate `is_xid_continue` characters onto `acc`, then look the spelling
up in `KEYWORDS` (a miss yields `Ident(NonReserved)`) and stamp a span of
the accumulated length ending at the final cursor position. -/
def lexIdent (acc : List Char) (src : List Char) (pos : Nat) :
    Token × List Char × Nat :=
  match src with
  | c :: rest =>
    if isXidContinue c then lexIdent (acc ++ [c]) rest (pos + 1)
    else
      (⟨(findKeyword (String.mk acc)).getD (.Ident .NonReserved),
        Span.new acc.length pos⟩, src, pos)
  | [] =>
    (⟨(findKeyword (String.mk acc)).getD (.Ident .NonReserved),
      Span.new acc.length pos⟩, [], pos)

/-- The `while !self.at_end() && self.peek().unwrap() != &'\''` loop of
`Lexer::lex_char_literal`: skip to the next single quote (or end of
input), counting consumed characters into `len`. -/
def lexCharLitLoop (len : Nat) (src : List Char) (pos : Nat) :
    Nat × List Char × Nat :=
  match src with
  | c :: rest =>
    if c ≠ '\'' then lexCharLitLoop (len + 1) rest (pos + 1)
    else (len, src, pos)
  | [] => (len, [], pos)

/-- `Lexer::lex_char_literal` (the opening quote is already consumed).
This is the code as it stands in the source: the closing-quote
consumption, the unterminated check after the loop and the
more-than-one-codepoint check are all commented out there, so the only
active paths are the at-end check, the `len == 2` branch (which builds
`Span::new(len + 1, cursor - 1)`) and a `Character` token of length
`len`. -/
def lexCharLiteral (src : List Char) (pos : Nat) : LexStep :=
  match src with
  | [] => (.error (.UnterminatedCharacterLiteral (Span.new 1 pos)), [], pos)
  | _ :: _ =>
    let r := lexCharLitLoop 1 src pos
    if r.1 = 2 then
      (.error (.EmptyCharacterLiteral (Span.new (r.1 + 1) (r.2.2 - 1))),
       r.2.1, r.2.2)
    else
      (.ok ⟨.Literal .Character, Span.new r.1 r.2.2⟩, r.2.1, r.2.2)

/-- The `while !self.at_end() && self.peek().unwrap() != &'"'` loop of
`Lexer::lex_string_literal`. -/
def lexStrLitLoop (len : Nat) (src : List Char) (pos : Nat) :
    Nat × List Char × Nat :=
  match src with
  | c :: rest =>
    if c ≠ '"' then lexStrLitLoop (len + 1) rest (pos + 1)
    else (len, src, pos)
  | [] => (len, [], pos)

/-- `Lexer::lex_string_literal` (the opening quote is already consumed):
skip to the closing double quote; `next_is('"')` failing yields
`UnterminatedStringLiteral`, otherwise the closing quote is consumed and a
`String` token of length `len + 1` is emitted. -/
def lexStringLiteral (src : List Char) (pos : Nat) : LexStep :=
  let r := lexStrLitLoop 1 src pos
  match r.2.1 with
  | '"' :: rest =>
    (.ok ⟨.Literal .String, Span.new (r.1 + 1) (r.2.2 + 1)⟩, rest, r.2.2 + 1)
  | other => (.error (.UnterminatedStringLiteral (Span.new r.1 r.2.2)), other, r.2.2)

/-- The per-base digit loops of `Lexer::lex_numerical_literal`: consume
characters satisfying `p` (the base's digit class or `'_'`). -/
def lexDigitLoop (p : Char → Bool) (len : Nat) (src : List Char) (pos : Nat) :
    Nat × List Char × Nat :=
  match src with
  | c :: rest =>
    if p c then lexDigitLoop p (len + 1) rest (pos + 1)
    else (len, src, pos)
  | [] => (len, [], pos)

/-- `Lexer::lex_numerical_literal` (the first digit is already consumed).
A leading `0` followed by `b`/`o`/`x` selects a base and consumes that
base's digits plus `_`; otherwise decimal digits are consumed and, if a
`.` immediately follows, the dot is consumed unconditionally, any digits
after it are consumed, and the token is `Float`. -/
def lexNumericalLiteral (firstDigit : Char) (src : List Char) (pos : Nat) :
    Token × List Char × Nat :=
  match src with
  | c :: rest =>
    if firstDigit = '0' ∧ (c = 'b' ∨ c = 'o' ∨ c = 'x') then
      let base : IntegerBase :=
        if c = 'b' then .Binary else if c = 'o' then .Octal else .Hexadecimal
      let digitP : Char → Bool :=
        match base with
        | .Binary => fun d => d = '0' || d = '1' || d = '_'
        | .Octal => fun d => isAsciiOctdigit d || d = '_'
        | _ => fun d => isAsciiHexdigit d || d = '_'
      let r := lexDigitLoop digitP 2 rest (pos + 1)
      (⟨.Literal (.Integer base), Span.new r.1 r.2.2⟩, r.2.1, r.2.2)
    else
      let r := lexDigitLoop isNumericChar 1 src pos
      match r.2.1 with
      | '.' :: rest' =>
        let r' := lexDigitLoop isNumericChar (r.1 + 1) rest' (r.2.2 + 1)
        (⟨.Literal .Float, Span.new r'.1 r'.2.2⟩, r'.2.1, r'.2.2)
      | other => (⟨.Literal (.Integer .Decimal), Span.new r.1 r.2.2⟩, other, r.2.2)
  | [] => (⟨.Literal (.Integer .Decimal), Span.new 1 pos⟩, [], pos)

/-- `Lexer::lex_potentially_longer_operator`: one character of lookahead;
if it is `checkNext` consume it and emit the length-2 kind, else emit the
length-1 fallback. -/
def lexLongerOperator (checkNext : Char) (ifNext fallback : TokenKind)
    (src : List Char) (pos : Nat) : Token × List Char × Nat :=
  match src with
  | c :: rest =>
    if c = checkNext then (⟨ifNext, Span.new 2 (pos + 1)⟩, rest, pos + 1)
    else (⟨fallback, Span.new 1 pos⟩, src, pos)
  | [] => (⟨fallback, Span.new 1 pos⟩, [], pos)

/-- `Lexer::lex_token`: advance one character (the cursor advances even on
an exhausted source, which is where the `EndOfFile` span comes from) and
dispatch on it; whitespace re-invokes the scan on the rest. -/
def lexToken (src : List Char) (pos : Nat) : LexStep :=
  match src with
  | [] => (.ok ⟨.EoF, Span.new 0 (pos + 1)⟩, [], pos + 1)
  | c :: rest =>
    let p := pos + 1
    if c = '(' then (.ok ⟨.OpenParen, Span.new 1 p⟩, rest, p)
    else if c = ')' then (.ok ⟨.ClosingParen, Span.new 1 p⟩, rest, p)
    else if c = '{' then (.ok ⟨.OpenCurly, Span.new 1 p⟩, rest, p)
    else if c = '}' then (.ok ⟨.ClosingCurly, Span.new 1 p⟩, rest, p)
    else if c = '[' then (.ok ⟨.OpenSquare, Span.new 1 p⟩, rest, p)
    else if c = ']' then (.ok ⟨.ClosingSquare, Span.new 1 p⟩, rest, p)
    else if c = ':' then (.ok ⟨.Colon, Span.new 1 p⟩, rest, p)
    else if c = ';' then (.ok ⟨.Semicolon, Span.new 1 p⟩, rest, p)
    else if c = '.' then (.ok ⟨.Period, Span.new 1 p⟩, rest, p)
    else if c = ',' then (.ok ⟨.Comma, Span.new 1 p⟩, rest, p)
    else if c = '=' then
      let r := lexLongerOperator '=' .EqualEqual .Equal rest p
      (.ok r.1, r.2.1, r.2.2)
    else if c = '+' then
      let r := lexLongerOperator '=' .PlusEqual .Plus rest p
      (.ok r.1, r.2.1, r.2.2)
    else if c = '-' then
      let r := lexLongerOperator '=' .MinusEqual .Minus rest p
      (.ok r.1, r.2.1, r.2.2)
    else if c = '*' then
      let r := lexLongerOperator '=' .StarEqual .Star rest p
      (.ok r.1, r.2.1, r.2.2)
    else if c = '/' then
      let r := lexLongerOperator '=' .SlashEqual .Slash rest p
      (.ok r.1, r.2.1, r.2.2)
    else if c = '%' then
      let r := lexLongerOperator '=' .PercentEqual .Percent rest p
      (.ok r.1, r.2.1, r.2.2)
    else if c = '&' then (.ok ⟨.Ampersand, Span.new 1 p⟩, rest, p)
    else if c = '|' then (.ok ⟨.Bar, Span.new 1 p⟩, rest, p)
    else if c = '~' then (.ok ⟨.Tilde, Span.new 1 p⟩, rest, p)
    else if c = '!' then
      let r := lexLongerOperator '=' .BangEqual .Bang rest p
      (.ok r.1, r.2.1, r.2.2)
    else if c = '<' then (.ok ⟨.Lt, Span.new 1 p⟩, rest, p)
    else if c = '>' then (.ok ⟨.Gt, Span.new 1 p⟩, rest, p)
    else if c = '"' then lexStringLiteral rest p
    else if c = '\'' then lexCharLiteral rest p
    else if isXidStart c || c = '_' then
      let r := lexIdent [c] rest p
      (.ok r.1, r.2.1, r.2.2)
    else if isNumericChar c then
      let r := lexNumericalLiteral c rest p
      (.ok r.1, r.2.1, r.2.2)
    else if isWhitespaceChar c then lexToken rest p
    else (.error (.UnexpectedCharacter c (Span.new 1 (p - 1))), rest, p)

/-- The driving loop of `lex`: scan tokens, pushing successes into the
token list (stopping after `EoF`) and diagnostics into the sink.  The
Rust loop's termination argument (every non-`EoF` step consumes at least
one character) is made explicit through a fuel parameter;
`lexLoopFuel_isSome` below proves `src.length + 1` fuel always
suffices. -/
def lexLoopF (fuel : Nat) (src : List Char) (pos : Nat)
    (toks : List Token) (diags : List LexDiagnostic) :
    Option (List Token × List LexDiagnostic) :=
  match fuel with
  | 0 => none
  | fuel + 1 =>
    match lexToken src pos with
    | (.ok t, rest, pos') =>
      if t.kind = .EoF then some (toks ++ [t], diags)
      else lexLoopF fuel rest pos' (toks ++ [t]) diags
    | (.error d, rest, pos') => lexLoopF fuel rest pos' toks (diags ++ [d])

/-- `lexer::lex`: run the scanning loop from position 1 with empty token
list and diagnostic sink; fail with the sink exactly when it is
non-empty.  The `none` fallback is unreachable (`lexLoopFuel_isSome`). -/
def lex (src : List Char) : Except (List LexDiagnostic) (List Token) :=
  match lexLoopF (src.length + 1) src 1 [] [] with
  | some (toks, diags) => if diags.isEmpty then .ok toks else .error diags
  | none => .error []

/-- The kinds of a lexed token list, discarding spans. -/
def lexKinds (s : String) : Except (List LexDiagnostic) (List TokenKind) :=
  (lex s.data).map (fun toks => toks.map Token.kind)

/-! ## Parser (`src/parser/src/lib.rs`, `ast.rs`, `diagnostics.rs`) -/

/-- `parser::ast::LiteralKind` (the integer base is dropped). -/
inductive AstLiteralKind where
  | Character | String | Integer | Float | Boolean
deriving DecidableEq, Repr

/-- `impl Into<ast::LiteralKind> for token::LiteralKind`. -/
def LiteralKind.toAst : LiteralKind → AstLiteralKind
  | .Character => .Character
  | .String => .String
  | .Integer _ => .Integer
  | .Float => .Float
  | .Boolean => .Boolean

/-- `parser::ast::UnaryOpKind`. -/
inductive UnaryOpKind where
  | Neg | LogNot | BwNot
deriving DecidableEq, Repr

/-- `impl Into<UnaryOpKind> for TokenKind`.  The Rust impl is
`unreachable!` off the three unary operators and is only invoked after an
`is_unary_op` check; the catch-all value is never produced. -/
def TokenKind.toUnaryOp : TokenKind → UnaryOpKind
  | .Minus => .Neg
  | .Bang => .LogNot
  | .Tilde => .BwNot
  | _ => .Neg

/-- `parser::ast::BinaryOpKind`. -/
inductive BinaryOpKind where
  | Equal | EqualEqual
  | Plus | PlusEqual
  | Minus | MinusEqual
  | Mul | MulEqual
  | Div | DivEqual
  | Mod | ModEqual
  | BwAnd | BwAndEqual | LogAnd
  | BwOr | BwOrEqual | LogOr
  | NotEqual
  | Lt | LtEqual | Gt | GtEqual
  | Shl | ShlEqual | Shr | ShrEqual
deriving DecidableEq, Repr

/-- `impl Into<BinaryOpKind> for TokenKind`.  The Rust impl is
`unreachable!` off the binary operators and is only invoked after the
operator's kind was matched; the catch-all value is never produced. -/
def TokenKind.toBinaryOp : TokenKind → BinaryOpKind
  | .Equal => .Equal
  | .EqualEqual => .EqualEqual
  | .Plus => .Plus
  | .PlusEqual => .PlusEqual
  | .Minus => .Minus
  | .MinusEqual => .MinusEqual
  | .Star => .Mul
  | .StarEqual => .MulEqual
  | .Slash => .Div
  | .SlashEqual => .DivEqual
  | .Percent => .Mod
  | .PercentEqual => .ModEqual
  | .Ampersand => .BwAnd
  | .AmpersandEqual => .BwAndEqual
  | .AmpAmp => .LogAnd
  | .Bar => .BwOr
  | .BarEqual => .BwOrEqual
  | .BarBar => .LogOr
  | .BangEqual => .NotEqual
  | .Lt => .Lt
  | .LtEqual => .LtEqual
  | .Gt => .Gt
  | .GtEqual => .GtEqual
  | .Shl => .Shl
  | .ShlEqual => .ShlEqual
  | .Shr => .Shr
  | .ShrEqual => .ShrEqual
  | _ => .Equal

/-- `parser::ast::ExpressionKind`. -/
inductive ExpressionKind where
  | Literal (k : AstLiteralKind)
  | Unary (operator : UnaryOpKind) (operand : ExpressionKind)
  | Binary (lhs : ExpressionKind) (operator : BinaryOpKind) (rhs : ExpressionKind)
  | Grouping (inner : ExpressionKind)
deriving DecidableEq, Repr

/-- `parser::diagnostics::ParseDiagnostic`: a single placeholder kind. -/
inductive ParseDiagnostic where
  | O
deriving DecidableEq, Repr

/-- Result of one parsing rule: the expression or diagnostic, paired with
the tokens left in the cursor (on an error, tokens consumed before the
failure stay consumed, as with the Rust iterator). -/
abbrev ParseResult := Option (Except ParseDiagnostic ExpressionKind × List Token)

/-- `Parser::at_end`: `peek().is_some_and(|t| t.kind == EoF)` — an empty
token list is *not* at end. -/
def atEnd (toks : List Token) : Bool :=
  match toks with
  | t :: _ => t.kind = .EoF
  | [] => false

mutual

/-- `Parser::parse_primary`: a `Literal` token becomes a literal node; an
`OpenParen` recurses into `parse_expr` and then advances once
*unconditionally* (the advanced token is never checked against `)`);
anything else — including an exhausted cursor — is diagnostic `O` with
nothing consumed.  Each recursive call spends one unit of fuel; the Rust
functions terminate because every unit spent follows at least one
consumed token. -/
def parsePrimary : Nat → List Token → ParseResult
  | 0, _ => none
  | fuel + 1, toks =>
    match toks with
    | t :: rest =>
      match t.kind with
      | .Literal lit => some (.ok (.Literal lit.toAst), rest)
      | .OpenParen =>
        match parseEquality fuel rest with
        | some (.ok e, rest') => some (.ok (.Grouping e), rest'.drop 1)
        | other => other
      | _ => some (.error .O, toks)
    | [] => some (.error .O, [])

/-- `Parser::parse_unary`: a prefix `-`/`!`/`~` wraps a recursively parsed
`unary`; otherwise fall through to `parse_primary`. -/
def parseUnary : Nat → List Token → ParseResult
  | 0, _ => none
  | fuel + 1, toks =>
    match toks with
    | t :: rest =>
      if t.kind.is_unary_op then
        match parseUnary fuel rest with
        | some (.ok e, rest') => some (.ok (.Unary t.kind.toUnaryOp e), rest')
        | other => other
      else parsePrimary fuel toks
    | [] => parsePrimary fuel []

/-- `Parser::parse_factor`: one `unary` operand, then the `*`/`/` fold. -/
def parseFactor : Nat → List Token → ParseResult
  | 0, _ => none
  | fuel + 1, toks =>
    match parseUnary fuel toks with
    | some (.ok e, rest) => parseFactorLoop fuel e rest
    | other => other

/-- The `while` fold of `parse_factor`: while the next token is `*` or
`/`, consume it, parse one more `unary` and fold left. -/
def parseFactorLoop : Nat → ExpressionKind → List Token → ParseResult
  | 0, _, _ => none
  | fuel + 1, e, toks =>
    match toks with
    | t :: rest =>
      if t.kind = .Star ∨ t.kind = .Slash then
        match parseUnary fuel rest with
        | some (.ok r, rest') =>
          parseFactorLoop fuel (.Binary e t.kind.toBinaryOp r) rest'
        | other => other
      else some (.ok e, toks)
    | [] => some (.ok e, [])

/-- `Parser::parse_term`: one `factor` operand, then the `+`/`-` fold. -/
def parseTerm : Nat → List Token → ParseResult
  | 0, _ => none
  | fuel + 1, toks =>
    match parseFactor fuel toks with
    | some (.ok e, rest) => parseTermLoop fuel e rest
    | other => other

/-- The `while` fold of `parse_term` (`Minus` or `Plus`). -/
def parseTermLoop : Nat → ExpressionKind → List Token → ParseResult
  | 0, _, _ => none
  | fuel + 1, e, toks =>
    match toks with
    | t :: rest =>
      if t.kind = .Minus ∨ t.kind = .Plus then
        match parseFactor fuel rest with
        | some (.ok r, rest') =>
          parseTermLoop fuel (.Binary e t.kind.toBinaryOp r) rest'
        | other => other
      else some (.ok e, toks)
    | [] => some (.ok e, [])

/-- `Parser::parse_comparison`: one `term` operand, then the
`is_comparison_op` fold. -/
def parseComparison : Nat → List Token → ParseResult
  | 0, _ => none
  | fuel + 1, toks =>
    match parseTerm fuel toks with
    | some (.ok e, rest) => parseComparisonLoop fuel e rest
    | other => other

/-- The `while` fold of `parse_comparison`. -/
def parseComparisonLoop : Nat → ExpressionKind → List Token → ParseResult
  | 0, _, _ => none
  | fuel + 1, e, toks =>
    match toks with
    | t :: rest =>
      if t.kind.is_comparison_op then
        match parseTerm fuel rest with
        | some (.ok r, rest') =>
          parseComparisonLoop fuel (.Binary e t.kind.toBinaryOp r) rest'
        | other => other
      else some (.ok e, toks)
    | [] => some (.ok e, [])

/-- `Parser::parse_equality`: one `comparison` operand, then the
`is_equality_op` fold. -/
def parseEquality : Nat → List Token → ParseResult
  | 0, _ => none
  | fuel + 1, toks =>
    match parseComparison fuel toks with
    | some (.ok e, rest) => parseEqualityLoop fuel e rest
    | other => other

/-- The `while` fold of `parse_equality`. -/
def parseEqualityLoop : Nat → ExpressionKind → List Token → ParseResult
  | 0, _, _ => none
  | fuel + 1, e, toks =>
    match toks with
    | t :: rest =>
      if t.kind.is_equality_op then
        match parseComparison fuel rest with
        | some (.ok r, rest') =>
          parseEqualityLoop fuel (.Binary e t.kind.toBinaryOp r) rest'
        | other => other
      else some (.ok e, toks)
    | [] => some (.ok e, [])

end

/-- `Parser::parse_expr`: delegate to `parse_equality`. -/
def parseExpr (fuel : Nat) (toks : List Token) : ParseResult :=
  parseEquality fuel toks

/-- The driving loop of `parse`: while not at `EoF`, parse one expression;
push successes onto `nodes` and diagnostics onto the sink — on a
diagnostic the cursor resumes wherever `parse_expr` stopped, which in the
`parse_primary` failure case is the very token that failed.  The loop's
own (missing) termination is the subject of one of the claims, so it is
fuel-indexed; each iteration gives `parse_expr` enough fuel for its input
(`8 * (length + 1)` covers the five ladder levels plus folds, each fuel
unit following a consumed token). -/
def parseLoop (fuel : Nat) (toks : List Token) (nodes : List ExpressionKind)
    (diags : List ParseDiagnostic) :
    Option (Except (List ParseDiagnostic) (List ExpressionKind)) :=
  match fuel with
  | 0 => none
  | fuel + 1 =>
    if atEnd toks then
      some (if diags.isEmpty then .ok nodes else .error diags)
    else
      match parseExpr (8 * (toks.length + 1)) toks with
      | some (.ok e, rest) => parseLoop fuel rest (nodes ++ [e]) diags
      | some (.error d, rest) => parseLoop fuel rest nodes (diags ++ [d])
      | none => none

/-- `parser::parse`: run the driver with empty node list and sink.  The
driver fuel `toks.length + 1` suffices whenever every iteration consumes
a token; the claims cover the input on which no fuel suffices. -/
def parse (toks : List Token) :
    Option (Except (List ParseDiagnostic) (List ExpressionKind)) :=
  parseLoop (toks.length + 1) toks [] []

/-- Lex a source string and, as the CLI collaborator does on lexer
success, parse the resulting token sequence. -/
def lexParse (s : String) :
    Option (Except (List ParseDiagnostic) (List ExpressionKind)) :=
  match lex s.data with
  | .ok toks => parse toks
  | .error _ => none

/-! ## Auxiliary definitions for the claims -/

/-- Number of `EoF` tokens in a token list. -/
def countEoF : List Token → Nat
  | [] => 0
  | t :: ts => (if t.kind = .EoF then 1 else 0) + countEoF ts

/-- The token sequence `lex` produces for the source `"+"`: a bare binary
operator with no operand, followed by `EoF`. -/
def bareOperatorTokens : List Token :=
  [⟨.Plus, Span.new 1 2⟩, ⟨.EoF, Span.new 0 3⟩]

/-! ## Helper lemmas: the lexer consumes characters -/

theorem lexCharLitLoop_rest (src : List Char) : ∀ (len pos : Nat),
    (lexCharLitLoop len src pos).2.1.length ≤ src.length := by
  induction src with
  | nil => intro len pos; simp [lexCharLitLoop]
  | cons c cs ih =>
    intro len pos
    simp only [lexCharLitLoop]
    split
    · exact le_trans (ih _ _) (by simp)
    · simp

theorem lexStrLitLoop_rest (src : List Char) : ∀ (len pos : Nat),
    (lexStrLitLoop len src pos).2.1.length ≤ src.length := by
  induction src with
  | nil => intro len pos; simp [lexStrLitLoop]
  | cons c cs ih =>
    intro len pos
    simp only [lexStrLitLoop]
    split
    · exact le_trans (ih _ _) (by simp)
    · simp

theorem lexDigitLoop_rest (p : Char → Bool) (src : List Char) : ∀ (len pos : Nat),
    (lexDigitLoop p len src pos).2.1.length ≤ src.length := by
  induction src with
  | nil => intro len pos; simp [lexDigitLoop]
  | cons c cs ih =>
    intro len pos
    simp only [lexDigitLoop]
    split
    · exact le_trans (ih _ _) (by simp)
    · simp

theorem lexIdent_rest (src : List Char) : ∀ (acc : List Char) (pos : Nat),
    (lexIdent acc src pos).2.1.length ≤ src.length := by
  induction src with
  | nil => intro acc pos; simp [lexIdent]
  | cons c cs ih =>
    intro acc pos
    simp only [lexIdent]
    split
    · exact le_trans (ih _ _) (by simp)
    · simp

theorem lexCharLiteral_rest (src : List Char) (pos : Nat) :
    (lexCharLiteral src pos).2.1.length ≤ src.length := by
  rcases src with _ | ⟨c, cs⟩
  · simp [lexCharLiteral]
  · simp only [lexCharLiteral]
    split
    · exact lexCharLitLoop_rest (c :: cs) 1 pos
    · exact lexCharLitLoop_rest (c :: cs) 1 pos

theorem lexStringLiteral_rest (src : List Char) (pos : Nat) :
    (lexStringLiteral src pos).2.1.length ≤ src.length := by
  have h := lexStrLitLoop_rest src 1 pos
  simp only [lexStringLiteral]
  split
  · rename_i rest heq
    rw [heq] at h
    simp only [List.length_cons] at h
    show rest.length ≤ src.length
    omega
  · exact h

theorem lexNumericalLiteral_rest (firstDigit : Char) (src : List Char) (pos : Nat) :
    (lexNumericalLiteral firstDigit src pos).2.1.length ≤ src.length := by
  rcases src with _ | ⟨c, cs⟩
  · simp [lexNumericalLiteral]
  · simp only [lexNumericalLiteral]
    split
    · exact le_trans (lexDigitLoop_rest _ cs 2 (pos + 1)) (by simp)
    · have h := lexDigitLoop_rest isNumericChar (c :: cs) 1 pos
      split
      · rename_i rest' heq
        have h' := lexDigitLoop_rest isNumericChar rest'
          ((lexDigitLoop isNumericChar 1 (c :: cs) pos).1 + 1)
          ((lexDigitLoop isNumericChar 1 (c :: cs) pos).2.2 + 1)
        refine le_trans h' ?_
        rw [heq] at h
        simp only [List.length_cons] at h ⊢
        omega
      · exact h

theorem lexLongerOperator_rest (checkNext : Char) (ifNext fallback : TokenKind)
    (src : List Char) (pos : Nat) :
    (lexLongerOperator checkNext ifNext fallback src pos).2.1.length ≤ src.length := by
  rcases src with _ | ⟨c, cs⟩
  · simp [lexLongerOperator]
  · simp only [lexLongerOperator]
    split
    · simp
    · simp

set_option maxHeartbeats 1000000 in
theorem lexToken_other (c : Char) (cs : List Char) (pos : Nat)
    (hpunct : c ∉ ['(', ')', '{', '}', '[', ']', ':', ';', '.', ',', '=', '+',
                   '-', '*', '/', '%', '&', '|', '~', '!', '<', '>', '"', '\'']) :
    lexToken (c :: cs) pos =
      (if isXidStart c || c = '_' then
        (.ok (lexIdent [c] cs (pos + 1)).1, (lexIdent [c] cs (pos + 1)).2.1,
         (lexIdent [c] cs (pos + 1)).2.2)
       else if isNumericChar c then
        (.ok (lexNumericalLiteral c cs (pos + 1)).1,
         (lexNumericalLiteral c cs (pos + 1)).2.1,
         (lexNumericalLiteral c cs (pos + 1)).2.2)
       else if isWhitespaceChar c then lexToken cs (pos + 1)
       else (.error (.UnexpectedCharacter c (Span.new 1 (pos + 1 - 1))), cs, pos + 1)) := by
  simp only [List.mem_cons, List.not_mem_nil, or_false] at hpunct
  push_neg at hpunct
  obtain ⟨h1, h2, h3, h4, h5, h6, h7, h8, h9, h10, h11, h12, h13, h14, h15, h16,
    h17, h18, h19, h20, h21, h22, h23, h24⟩ := hpunct
  rw [lexToken.eq_def]
  dsimp only
  rw [if_neg h1, if_neg h2, if_neg h3, if_neg h4, if_neg h5, if_neg h6, if_neg h7,
    if_neg h8, if_neg h9, if_neg h10, if_neg h11, if_neg h12, if_neg h13, if_neg h14,
    if_neg h15, if_neg h16, if_neg h17, if_neg h18, if_neg h19, if_neg h20,
    if_neg h21, if_neg h22, if_neg h23, if_neg h24]

set_option maxHeartbeats 1000000 in
theorem lexToken_rest (src : List Char) : ∀ (pos : Nat), src ≠ [] →
    (lexToken src pos).2.1.length < src.length := by
  induction src with
  | nil => intro pos h; exact absurd rfl h
  | cons c cs ih =>
    intro pos _
    by_cases hmem : c ∈ ['(', ')', '{', '}', '[', ']', ':', ';', '.', ',', '=', '+',
                         '-', '*', '/', '%', '&', '|', '~', '!', '<', '>', '"', '\'']
    · fin_cases hmem
      all_goals first
        | exact Nat.lt_succ_of_le (le_refl _)
        | exact Nat.lt_succ_of_le (lexLongerOperator_rest _ _ _ _ _)
        | exact Nat.lt_succ_of_le (lexStringLiteral_rest _ _)
        | exact Nat.lt_succ_of_le (lexCharLiteral_rest _ _)
    · rw [lexToken_other c cs pos hmem]
      split_ifs
      · exact Nat.lt_succ_of_le (lexIdent_rest _ _ _)
      · exact Nat.lt_succ_of_le (lexNumericalLiteral_rest _ _ _)
      · rcases cs with _ | ⟨cp, csp⟩
        · exact Nat.lt_succ_of_le (le_refl _)
        · exact Nat.lt_succ_of_le (le_of_lt (ih _ (by simp)))
      · exact Nat.lt_succ_of_le (le_refl _)

/-! ## Helper lemmas: the scanning loop -/

theorem countEoF_append (l₁ l₂ : List Token) :
    countEoF (l₁ ++ l₂) = countEoF l₁ + countEoF l₂ := by
  induction l₁ with
  | nil => simp [countEoF]
  | cons t ts ih => simp [countEoF, ih]; omega

/-- `src.length + 1` units of fuel always complete the scanning loop:
every iteration that does not break on `EoF` consumes at least one source
character. -/
theorem lexLoopF_isSome : ∀ (fuel : Nat) (src : List Char), src.length < fuel →
    ∀ (pos : Nat) (toks : List Token) (diags : List LexDiagnostic),
    (lexLoopF fuel src pos toks diags).isSome = true := by
  intro fuel
  induction fuel with
  | zero => intro src h; exact absurd h (Nat.not_lt_zero _)
  | succ n ih =>
    intro src hlen pos toks diags
    rcases src with _ | ⟨c, cs⟩
    · simp [lexLoopF, lexToken]
    · have hrest := lexToken_rest (c :: cs) pos (by simp)
      rw [lexLoopF]
      rcases hT : lexToken (c :: cs) pos with ⟨res, rest, pos'⟩
      rw [hT] at hrest
      simp only [List.length_cons] at hrest hlen
      rcases res with d | t
      · exact ih rest (by omega) pos' toks (diags ++ [d])
      · by_cases hk : t.kind = .EoF
        · simp [hk]
        · simp only [hk, if_false, if_neg hk]
          exact ih rest (by omega) pos' (toks ++ [t]) diags

/-- Shape of a completed scanning loop: relative to the accumulated
tokens, exactly one `EoF` token is appended, it is the final token, and
the accumulated diagnostics only grow. -/
theorem lexLoopF_shape : ∀ (fuel : Nat) (src : List Char) (pos : Nat)
    (toks : List Token) (diags : List LexDiagnostic)
    (res : List Token × List LexDiagnostic),
    lexLoopF fuel src pos toks diags = some res →
    countEoF res.1 = countEoF toks + 1 ∧
      (res.1.getLast?).map Token.kind = some .EoF := by
  intro fuel
  induction fuel with
  | zero => intro src pos toks diags res h; exact absurd h (by simp [lexLoopF])
  | succ n ih =>
    intro src pos toks diags res h
    rw [lexLoopF] at h
    rcases hT : lexToken src pos with ⟨r, rest, pos'⟩
    rw [hT] at h
    rcases r with d | t
    · exact ih rest pos' toks (diags ++ [d]) res h
    · replace h : (if t.kind = .EoF then some (toks ++ [t], diags)
          else lexLoopF n rest pos' (toks ++ [t]) diags) = some res := h
      by_cases hk : t.kind = .EoF
      · rw [if_pos hk] at h
        obtain rfl : (toks ++ [t], diags) = res := by simpa using h
        constructor
        · simp [countEoF_append, countEoF, hk]
        · simp [hk]
      · rw [if_neg hk] at h
        have := ih rest pos' (toks ++ [t]) diags res h
        rw [countEoF_append] at this
        refine ⟨?_, this.2⟩
        rw [this.1]
        simp [countEoF, hk]

/-! ## Helper lemmas: identifiers -/

/-- An identifier-start character (`is_xid_start` or `_`) is none of the
characters with dedicated dispatch arms in `lex_token`. -/
theorem identStart_not_punct (c : Char) (h : (isXidStart c || c = '_') = true) :
    c ∉ ['(', ')', '{', '}', '[', ']', ':', ';', '.', ',', '=', '+',
         '-', '*', '/', '%', '&', '|', '~', '!', '<', '>', '"', '\''] := by
  intro hmem
  fin_cases hmem <;> revert h <;> decide

/-- When every character of `cs` is `is_xid_continue`, `lex_ident`
consumes all of it and stamps the accumulated spelling's keyword-table
lookup over a span of that length. -/
theorem lexIdent_all (cs : List Char) : ∀ (acc : List Char) (pos : Nat),
    (∀ x ∈ cs, isXidContinue x = true) →
    lexIdent acc cs pos =
      (⟨(findKeyword (String.mk (acc ++ cs))).getD (.Ident .NonReserved),
        Span.new (acc.length + cs.length) (pos + cs.length)⟩, [], pos + cs.length) := by
  induction cs with
  | nil => intro acc pos _; simp [lexIdent]
  | cons x xs ih =>
    intro acc pos h
    have hx : isXidContinue x = true := h x (by simp)
    rw [lexIdent.eq_def]
    dsimp only
    rw [if_pos hx, ih (acc ++ [x]) (pos + 1) (fun y hy => h y (by simp [hy]))]
    simp only [List.append_assoc, List.singleton_append, Prod.mk.injEq,
      Token.mk.injEq, Span.new, Span.mk.injEq, List.length_append,
      List.length_cons, List.length_nil, List.length_singleton, and_true,
      true_and]
    refine ⟨⟨?_, ?_⟩, ?_⟩ <;> push_cast <;> omega

/-! ## Helper lemmas: the parser driver on a bare operator -/

/-- On the token sequence of `"+"` the driver makes no progress: the
ladder falls through to `parse_primary`, which rejects `Plus` without
consuming it, so every iteration re-attempts the same token and no
amount of fuel completes the loop. -/
theorem parseLoop_bareOp : ∀ (fuel : Nat) (nodes : List ExpressionKind)
    (diags : List ParseDiagnostic),
    parseLoop fuel bareOperatorTokens nodes diags = none := by
  intro fuel
  induction fuel with
  | zero => intro nodes diags; rfl
  | succ n ih =>
    intro nodes diags
    exact ih nodes (diags ++ [.O])

/-! ## Claim theorems -/

/-- Claim C1: the spec says `lex` never panics and in particular no
character-literal input may reach an out-of-range `Span::new` computation
(`start = pos - len` must not underflow).  The code violates this: on the
well-formed input `"'a'"` the active `lex_char_literal` path takes the
`len == 2` branch and computes `Span::new(3, 2)`, whose start is
`2 - 3 = -1` — a `usize` underflow (debug-build panic) in Rust.  The
code's own test `test_lex_literals` expects `'a'` to lex as a `Character`
token, so the claim states the intent and the code is the bug. -/
theorem lex_char_literal_span_underflow :
    lex "'a'".data =
      .error [.EmptyCharacterLiteral ⟨-1, 2⟩,
              .UnterminatedCharacterLiteral ⟨3, 4⟩] ∧
    (Span.new 3 2).start < 0 :=
  ⟨rfl, by decide⟩

/-- Claim C2 (counterexample): the claim says `parse` terminates on every
finite token sequence, in particular on a bare operator with no operand.
It does not: on the token sequence of `"+"` the driver loop never
completes, whatever fuel it is given. -/
theorem parse_terminates_cx :
    ¬ ∃ fuel, (parseLoop fuel bareOperatorTokens [] []).isSome = true := by
  rintro ⟨fuel, h⟩
  rw [parseLoop_bareOp fuel [] []] at h
  simp at h

/-- Claim C2 (amended): on a bare operator with no operand, `parse_expr`
itself returns the parse diagnostic `O` without crashing and without
consuming the failing token — but the top-level `parse` driver does not
terminate on such input: it re-attempts the same token forever, so the
call never returns and the remaining stream is never consumed. -/
theorem parse_bare_operator_diverges :
    parseExpr 24 bareOperatorTokens = some (.error .O, bareOperatorTokens) ∧
    ∀ fuel, parseLoop fuel bareOperatorTokens [] [] = none :=
  ⟨rfl, fun fuel => parseLoop_bareOp fuel [] []⟩

/-- Claim C3: the spec's literal edge cases do not match the code.  With
the checks in `lex_char_literal` commented out: `"''"` produces a
1-character `Character` token and then an `UnterminatedCharacterLiteral`
(not `EmptyCharacterLiteral`); `"'ab'"` likewise ends in
`UnterminatedCharacterLiteral` (never `CharacterLiteralOneCodePoint`);
`"'a"` takes the `EmptyCharacterLiteral` branch with an underflowed span
(not `UnterminatedCharacterLiteral`); and the well-formed `"'a'"` yields
diagnostics instead of a three-character `Character` token, contradicting
the code's own `test_lex_literals`.  Only the unterminated-string case
behaves as claimed. -/
theorem char_literal_diagnostics_diverge :
    lex "''".data = .error [.UnterminatedCharacterLiteral ⟨2, 3⟩] ∧
    lex "'ab'".data = .error [.UnterminatedCharacterLiteral ⟨4, 5⟩] ∧
    lex "'a".data = .error [.EmptyCharacterLiteral ⟨-1, 2⟩] ∧
    lex "\"abc".data = .error [.UnterminatedStringLiteral ⟨1, 5⟩] ∧
    lex "'a'".data =
      .error [.EmptyCharacterLiteral ⟨-1, 2⟩,
              .UnterminatedCharacterLiteral ⟨3, 4⟩] :=
  ⟨rfl, rfl, rfl, rfl, rfl⟩

/-- Claim C4 (counterexample): not every key of the keyword table lexes as
`Ident(Keyword(_))` — `"true"` is a key of `KEYWORDS` and lexes as
`Literal(Boolean)`. -/
theorem keyword_table_boolean_cx :
    lexKinds "true" = .ok [.Literal .Boolean, .EoF] ∧
    ("true", TokenKind.Literal .Boolean) ∈ KEYWORDS ∧
    ∀ k, TokenKind.Literal .Boolean ≠ .Ident (.Keyword k) :=
  ⟨rfl, by decide, fun k h => TokenKind.noConfusion h⟩

/-- Claim C4 (amended): every key of the fixed keyword table lexes as the
single token kind the table assigns it — `Ident(Keyword(_))` for the
fourteen keywords and `Literal(Boolean)` for `"true"`/`"false"` — and
every other identifier-shaped string (identifier-start or `_` followed by
identifier-continue characters) lexes as a single `Ident(NonReserved)`
token. -/
theorem keyword_table_partition (c : Char) (cs : List Char)
    (hc : (isXidStart c || c = '_') = true)
    (hcs : ∀ x ∈ cs, isXidContinue x = true)
    (hk : findKeyword (String.mk (c :: cs)) = none) :
    (∀ p ∈ KEYWORDS, lexKinds p.1 = .ok [p.2, .EoF]) ∧
    lex (c :: cs) =
      .ok [⟨.Ident .NonReserved, Span.new (1 + cs.length) (2 + cs.length)⟩,
           ⟨.EoF, Span.new 0 (2 + cs.length + 1)⟩] := by
  constructor
  · intro p hp
    fin_cases hp <;> rfl
  · have hstep1 : lexToken (c :: cs) 1 =
        (.ok ⟨.Ident .NonReserved, Span.new (1 + cs.length) (2 + cs.length)⟩,
         [], 2 + cs.length) := by
      rw [lexToken_other c cs 1 (identStart_not_punct c hc), if_pos hc,
        lexIdent_all cs [c] (1 + 1) hcs]
      simp only [List.singleton_append, List.length_singleton]
      rw [hk]
      rfl
    have hstep2 : lexToken [] (2 + cs.length) =
        (.ok ⟨.EoF, Span.new 0 (2 + cs.length + 1)⟩, [], 2 + cs.length + 1) := rfl
    have hloop : lexLoopF ((c :: cs).length + 1) (c :: cs) 1 [] [] =
        some ([⟨.Ident .NonReserved, Span.new (1 + cs.length) (2 + cs.length)⟩,
               ⟨.EoF, Span.new 0 (2 + cs.length + 1)⟩], []) := by
      simp only [List.length_cons]
      simp only [lexLoopF, hstep1, hstep2]
      rfl
    simp only [lex, hloop]
    rfl

/-- Claim C4 (witness): applying the partition theorem to the concrete
identifier `"foo"`. -/
theorem keyword_table_partition_witness :
    lex "foo".data =
      .ok [⟨.Ident .NonReserved, Span.new 3 4⟩, ⟨.EoF, Span.new 0 5⟩] :=
  (keyword_table_partition 'f' ['o', 'o'] (by decide) (by decide) (by decide)).2

/-- Claim C5 (counterexample): the claim says a digit run followed by `.`
is a `Float` only when digits follow the dot, so `"10."` should lex as a
`Decimal` integer with the `.` left for a `Period` token.  The code never
checks for digits after the dot: `"10."` lexes as a single `Float`
token. -/
theorem trailing_dot_float_cx :
    lexKinds "10." = .ok [.Literal .Float, .EoF] ∧
    lexKinds "10." ≠ .ok [.Literal (.Integer .Decimal), .Period, .EoF] := by
  exact ⟨rfl, by decide⟩

/-- Claim C5 (amended): when a decimal digit run is followed by `.`, the
dot is consumed unconditionally and the token is classified `Float`
whether or not digits follow it; `"10."` lexes as one `Float` token
spanning all three characters. -/
theorem trailing_dot_lexes_as_float :
    lex "10.".data = .ok [⟨.Literal .Float, ⟨1, 4⟩⟩, ⟨.EoF, ⟨5, 5⟩⟩] := rfl

/-- Claim C6: `"1 + 2 * 3"` parses to
`Binary(+, Literal(Integer), Binary(*, Literal(Integer), Literal(Integer)))`,
`"(1 + 2) * 3"` parses to `Binary(*, Grouping(Binary(+, 1, 2)), 3)`, and
same-precedence operators fold left-associatively: `"1 - 2 - 3"` parses to
`Binary(-, Binary(-, 1, 2), 3)`. -/
theorem parser_precedence_left_assoc :
    lexParse "1 + 2 * 3" =
      some (.ok [.Binary (.Literal .Integer) .Plus
                  (.Binary (.Literal .Integer) .Mul (.Literal .Integer))]) ∧
    lexParse "(1 + 2) * 3" =
      some (.ok [.Binary
                  (.Grouping (.Binary (.Literal .Integer) .Plus (.Literal .Integer)))
                  .Mul (.Literal .Integer)]) ∧
    lexParse "1 - 2 - 3" =
      some (.ok [.Binary (.Binary (.Literal .Integer) .Minus (.Literal .Integer))
                  .Minus (.Literal .Integer)]) :=
  ⟨rfl, rfl, rfl⟩

/-- Claim C7: numeric base detection — `"0b1010"` is `Integer{Binary}`,
`"0xFF"` is `Integer{Hexadecimal}`, `"10.5"` is `Float`, `"10"` is
`Integer{Decimal}`, and an underscore inside a digit run does not
terminate the literal (`"0b1000_0001"` is one `Integer{Binary}`
token). -/
theorem numeric_base_detection :
    lexKinds "0b1010" = .ok [.Literal (.Integer .Binary), .EoF] ∧
    lexKinds "0xFF" = .ok [.Literal (.Integer .Hexadecimal), .EoF] ∧
    lexKinds "10.5" = .ok [.Literal .Float, .EoF] ∧
    lexKinds "10" = .ok [.Literal (.Integer .Decimal), .EoF] ∧
    lexKinds "0b1000_0001" = .ok [.Literal (.Integer .Binary), .EoF] :=
  ⟨rfl, rfl, rfl, rfl, rfl⟩

/-- Claim C8: `lex` fails with the diagnostic sink exactly when a
diagnostic was recorded, so a returned sink is never empty; and a
successful result contains exactly one `EoF` token, which is its last
element. -/
theorem lex_sink_and_eof (src : List Char) :
    (∀ sink, lex src = .error sink → sink ≠ []) ∧
    (∀ toks, lex src = .ok toks →
      countEoF toks = 1 ∧ (toks.getLast?).map Token.kind = some .EoF) := by
  have hs := lexLoopF_isSome (src.length + 1) src (Nat.lt_succ_self _) 1 [] []
  rw [Option.isSome_iff_exists] at hs
  obtain ⟨⟨toks₀, diags₀⟩, hres⟩ := hs
  have hshape := lexLoopF_shape (src.length + 1) src 1 [] [] _ hres
  simp only [countEoF] at hshape
  constructor
  · intro sink hsink
    simp only [lex] at hsink
    rw [hres] at hsink
    replace hsink : (if diags₀.isEmpty then (.ok toks₀ : Except _ _)
        else .error diags₀) = .error sink := hsink
    by_cases hd : diags₀.isEmpty
    · rw [if_pos hd] at hsink
      exact Except.noConfusion hsink
    · rw [if_neg hd] at hsink
      obtain rfl : diags₀ = sink := by injection hsink
      simpa using hd
  · intro toks htoks
    simp only [lex] at htoks
    rw [hres] at htoks
    replace htoks : (if diags₀.isEmpty then (.ok toks₀ : Except _ _)
        else .error diags₀) = .ok toks := htoks
    by_cases hd : diags₀.isEmpty
    · rw [if_pos hd] at htoks
      obtain rfl : toks₀ = toks := by injection htoks
      exact hshape
    · rw [if_neg hd] at htoks
      exact Except.noConfusion htoks

/-- Claim C8 (witness): the shape facts instantiated through the theorem
at the concrete source `"1"`. -/
theorem lex_sink_and_eof_witness :
    countEoF [⟨.Literal (.Integer .Decimal), Span.new 1 2⟩, ⟨.EoF, Span.new 0 3⟩] = 1 ∧
    (([⟨.Literal (.Integer .Decimal), Span.new 1 2⟩,
       ⟨.EoF, Span.new 0 3⟩] : List Token).getLast?).map Token.kind = some .EoF :=
  (lex_sink_and_eof "1".data).2 _ rfl

/-- Claim C9: span coalescing is commutative and idempotent, and for every
two spans — disjoint, adjacent, overlapping, or nested — it returns the
covering span `{start := min, stop := max}`, containing every offset of
either input and every offset in between. -/
theorem span_coalesce_properties (a b : Span) :
    a.coalesce_adjacent b = b.coalesce_adjacent a ∧
    a.coalesce_adjacent a = a ∧
    (a.coalesce_adjacent b).start = min a.start b.start ∧
    (a.coalesce_adjacent b).stop = max a.stop b.stop ∧
    (∀ x : Int, (a.start ≤ x ∧ x < a.stop) ∨ (b.start ≤ x ∧ x < b.stop) →
      (a.coalesce_adjacent b).start ≤ x ∧ x < (a.coalesce_adjacent b).stop) ∧
    (∀ x : Int, min a.start b.start ≤ x → x < max a.stop b.stop →
      (a.coalesce_adjacent b).start ≤ x ∧ x < (a.coalesce_adjacent b).stop) := by
  refine ⟨?_, ?_, rfl, rfl, ?_, ?_⟩
  · simp [Span.coalesce_adjacent, min_comm, max_comm]
  · simp [Span.coalesce_adjacent]
  · intro x hx
    rcases hx with ⟨h1, h2⟩ | ⟨h1, h2⟩
    · exact ⟨le_trans (min_le_left _ _) h1, lt_of_lt_of_le h2 (le_max_left _ _)⟩
    · exact ⟨le_trans (min_le_right _ _) h1, lt_of_lt_of_le h2 (le_max_right _ _)⟩
  · intro x h1 h2
    exact ⟨h1, h2⟩

/-- Claim C9 (witness): the commutativity component applied to two
concrete disjoint spans. -/
theorem span_coalesce_properties_witness :
    Span.coalesce_adjacent ⟨1, 2⟩ ⟨3, 5⟩ = Span.coalesce_adjacent ⟨3, 5⟩ ⟨1, 2⟩ :=
  (span_coalesce_properties ⟨1, 2⟩ ⟨3, 5⟩).1

/-- Claim C10: after parsing the inner expression of a parenthesized
group, `parse_primary` advances once without checking the token is `)`:
on `[OpenParen, Literal, Literal, EoF]` the parser succeeds with the
single expression `Grouping(Literal)` and reports no diagnostic, so the
missing `)` is never diagnosed. -/
theorem grouping_missing_paren_unchecked :
    parse [⟨.OpenParen, Span.new 1 2⟩, ⟨.Literal (.Integer .Decimal), Span.new 1 3⟩,
           ⟨.Literal (.Integer .Decimal), Span.new 1 4⟩, ⟨.EoF, Span.new 0 5⟩] =
      some (.ok [.Grouping (.Literal .Integer)]) := rfl
